import Mathlib

/-!
Verification of the ASSAT static-analysis scanner (`assat.py`).

The development shallowly embeds the scanning core of the program:
  * the `Const` regular expressions (`GET_REGEXP`, `SET_REGEXP`,
    `PREFS_REGEXP`, `KEY_REGEXP`) as executable matchers on strings,
  * the per-line classification performed by `XMLStatic.analyze`
    (an ordered `if`/`elif`/`elif` chain, first match wins),
  * the per-file scanning loops of `XMLStatic.analyze`,
    `KeyStatic.analyze` and `FinderStatic.analyze`,
  * file discovery (`Java.files`, `Static.get_next_file`),
  * result rendering (`Data.get_data`, `XMLFileData.get_string`,
    `KeyFileData.get_string`) and the mode dispatch of `Menu.work`.

Python `re.search(p, line)` with `re.IGNORECASE` is modelled by
lower-casing the line and searching for the (already lower-case)
pattern constants.  `.` in the patterns never has to match a newline:
lines come from `file.readlines()`, so a line contains `\n` only as
its final character, after which no pattern text could start anyway.
-/

/-- Characters stripped by Python's `str.strip()`. -/
def pySpace (c : Char) : Bool :=
  c == ' ' || c == '\t' || c == '\n' || c == '\r' || c == '\x0b' || c == '\x0c'

/-- Python `line.strip()`: remove leading and trailing whitespace. -/
def pyStrip (s : String) : String :=
  String.mk (((s.data.dropWhile pySpace).reverse.dropWhile pySpace).reverse)

/-- `beginsWith p l` holds when `p` is an initial segment of `l`. -/
def beginsWith : List Char → List Char → Bool
  | [], _ => true
  | _ :: _, [] => false
  | a :: as, b :: bs => a == b && beginsWith as bs

/-- `containsSub p l`: `p` occurs as a contiguous substring of `l`
(the semantics of `re.search` for a plain-text pattern). -/
def containsSub (p : List Char) : List Char → Bool
  | [] => p.isEmpty
  | a :: t => beginsWith p (a :: t) || containsSub p t

/-- Drop everything up to and including the first occurrence of `p`;
`none` when `p` does not occur.  Used to model the regex shape
`p.*q`: the pattern matches iff `q` occurs somewhere after the first
occurrence of `p` (any later occurrence of `p` only sees a suffix of
what the first one sees, so searching after the first is complete). -/
def afterFirst (p : List Char) : List Char → Option (List Char)
  | [] => if p.isEmpty then some [] else none
  | a :: t =>
    if beginsWith p (a :: t) then some ((a :: t).drop p.length)
    else afterFirst p t

/-- Lower-cased character list of a string (models `re.IGNORECASE`:
the pattern constants below are already lower case). -/
def toLowerList (s : String) : List Char := s.data.map Char.toLower

/- String constants of the `Const` class. -/
namespace Const

def ERR_NO_WORK_MODE : String :=
  "Zero or more than one work modes specified! Please run the script with --help flag to get help"

def ERR_NO_PATH : String :=
  "Please specify the path to Java decompiled code directory via --path flag"

def ERR_NO_PATTERN : String :=
  "Please specify the pattern to match via --pattern flag"

def HEADER : String := "Scan results"

def NO_RES : String := "No results found"

end Const

/-- The five typed suffixes of `GET_REGEXP = pref.*get(Int|Boolean|Float|Long|String)`,
lower-cased together with the `get` stem. -/
def getAlternatives : List (List Char) :=
  ["getint".toList, "getboolean".toList, "getfloat".toList,
   "getlong".toList, "getstring".toList]

/-- The five typed suffixes of `SET_REGEXP = pref.*put(Int|Boolean|Float|Long|String)`. -/
def putAlternatives : List (List Char) :=
  ["putint".toList, "putboolean".toList, "putfloat".toList,
   "putlong".toList, "putstring".toList]

/-- `re.search(GET_REGEXP, line)` with `re.IGNORECASE`:
`pref`, then anything, then one of the `get*` alternatives. -/
def getMatch (line : String) : Bool :=
  match afterFirst "pref".toList (toLowerList line) with
  | none => false
  | some rest => getAlternatives.any (fun g => containsSub g rest)

/-- `re.search(SET_REGEXP, line)` with `re.IGNORECASE`. -/
def setMatch (line : String) : Bool :=
  match afterFirst "pref".toList (toLowerList line) with
  | none => false
  | some rest => putAlternatives.any (fun g => containsSub g rest)

/-- `re.search(PREFS_REGEXP, line)` with `re.IGNORECASE`:
plain case-insensitive substring search for `sharedPreferences`. -/
def prefsMatch (line : String) : Bool :=
  containsSub "sharedpreferences".toList (toLowerList line)

/-- `re.search(KEY_REGEXP, line)` with `re.IGNORECASE`:
`KeyChain|KeyStore`. -/
def keyMatch (line : String) : Bool :=
  containsSub "keychain".toList (toLowerList line) ||
  containsSub "keystore".toList (toLowerList line)

/-- The three categories of `XMLStatic.analyze` (the buckets
`getters`, `setters`, `rest`, rendered under the keys
`Getters`, `Setters`, `Rest`). -/
inductive XMLCat
  | get
  | set
  | rest
deriving DecidableEq

/-- The ordered rule table of `XMLStatic.analyze`: the `if`/`elif`/`elif`
chain tries `GET_REGEXP`, then `SET_REGEXP`, then `PREFS_REGEXP`. -/
def xmlRules : List (XMLCat × (String → Bool)) :=
  [(XMLCat.get, getMatch), (XMLCat.set, setMatch), (XMLCat.rest, prefsMatch)]

/-- First-match-wins evaluation of an ordered rule table. -/
def firstMatch (rules : List (XMLCat × (String → Bool))) (line : String) :
    Option XMLCat :=
  (rules.find? (fun r => r.2 line)).map Prod.fst

/-- The classification a line receives in `XMLStatic.analyze`
(`none` when no branch of the `if`/`elif` chain fires and the line is
discarded). -/
def xmlClassify (line : String) : Option XMLCat := firstMatch xmlRules line

/-- One bucket of the scanning loop
`for num, line in enumerate(file.content)`, restricted to the lines
satisfying `pred`; `i` is the number of the next line.  Each kept line
contributes the pair (line number, `line.strip()`); the source stores
the formatted string `'%5d : %s\n' % (num, line.strip())` instead,
which `fmtEntry` below reproduces at rendering time. -/
def scanBucketGo (pred : String → Bool) (i : Nat) :
    List String → List (Nat × String)
  | [] => []
  | l :: ls =>
    if pred l then (i, pyStrip l) :: scanBucketGo pred (i + 1) ls
    else scanBucketGo pred (i + 1) ls

/-- Scan a whole file (line numbering starts at 0, as `enumerate` does). -/
def scanBucket (pred : String → Bool) (content : List String) :
    List (Nat × String) :=
  scanBucketGo pred 0 content

/-- The three buckets `XMLStatic.analyze` accumulates for one file and
copies into `XMLFileData` (the source copies with `getters[:]` before
clearing the shared lists, so the buckets of different files are
independent). -/
structure XMLFileData where
  getters : List (Nat × String)
  setters : List (Nat × String)
  rest : List (Nat × String)
deriving DecidableEq

/-- The bucket of category `c` produced by scanning one file in
`XMLStatic.analyze`.  A line lands in bucket `c` exactly when the
first-match-wins classification returns `c`, which is what the
`if`/`elif`/`elif` chain implements. -/
def xmlBucket (c : XMLCat) (content : List String) : List (Nat × String) :=
  scanBucket (fun l => xmlClassify l == some c) content

/-- `XMLStatic.analyze`, restricted to a single file's content. -/
def xmlScanFile (content : List String) : XMLFileData :=
  ⟨xmlBucket XMLCat.get content,
   xmlBucket XMLCat.set content,
   xmlBucket XMLCat.rest content⟩

/-- `KeyStatic.analyze`, restricted to a single file's content
(`tmp = []` is re-created for every file in that loop). -/
def keyScanFile (content : List String) : List (Nat × String) :=
  scanBucket keyMatch content

/-- The matches `FinderStatic.analyze` extracts from a single file's
content; `m` models `re.search` of the compiled user pattern. -/
def finderScanFile (m : String → Bool) (content : List String) :
    List (Nat × String) :=
  scanBucket m content

/-- The filesystem, as seen through the two library calls the program
makes.  `walkEntries root` lists, in traversal order, the
`(dir_path, filename)` pairs `os.walk(root)` produces for the regular
files below `root`; `readLines p` is `open(p).readlines()`;
`rootOk root` tells whether `root` is a readable directory.  With the
default `onerror=None`, `os.walk` silently swallows the `scandir`
failure on a missing or unreadable root and yields nothing, which
`osWalkEntries` encodes. -/
structure FileSystem where
  rootOk : String → Bool
  walkEntries : String → List (String × String)
  readLines : String → List String

/-- `os.walk(root)` file entries: empty when the root is not a readable
directory (errors are ignored by default), the recorded traversal
otherwise. -/
def osWalkEntries (fs : FileSystem) (root : String) : List (String × String) :=
  if fs.rootOk root then fs.walkEntries root else []

/-- `os.path.join(dir_path, filename)`.  `os.walk` never produces an
absolute or empty `filename`, and the separator is inserted whenever
`dir_path` does not already end with one; the standard case is
modelled. -/
def pathJoin (d n : String) : String := d ++ "/" ++ n

/-- `Java.files`: the generator yielding the joined path of every file
under the root. -/
def javaFiles (fs : FileSystem) (root : String) : List String :=
  (osWalkEntries fs root).map (fun e => pathJoin e.1 e.2)

/-- Python `path.endswith(suffix)`. -/
def strEndsWith (s suffix : String) : Bool :=
  beginsWith suffix.data.reverse s.data.reverse

/-- The `File` objects of the program: content (list of lines, each
with its trailing newline as `readlines` leaves it) and path. -/
structure File where
  content : List String
  path : String

/-- `Static.get_next_file`: keep the paths from `Java.files` that end
with the character sequence `java` (note: no dot check) and read each
kept file. -/
def getNextFile (fs : FileSystem) (root : String) : List File :=
  ((javaFiles fs root).filter (fun p => strEndsWith p "java")).map
    (fun p => ⟨fs.readLines p, p⟩)

/-- ANSI styling configuration: the four mutable colour constants of
`Const`.  `Menu.work` blanks all of them when `--nocolor` is given;
the configuration is threaded explicitly here instead of being global
mutable state. -/
structure Colors where
  green : String
  yellow : String
  red : String
  endc : String

/-- The colour codes as initialised in `Const`. -/
def defaultColors : Colors := ⟨"\x1b[92m", "\x1b[93m", "\x1b[91m", "\x1b[0m"⟩

/-- The colour configuration after the `--nocolor` reset. -/
def noColors : Colors := ⟨"", "", "", ""⟩

/-- `'%5d : %s\n' % (num, stripped)`: the formatted match line the scan
loops build (stored here as the pair and formatted at rendering). -/
def fmtEntry (e : Nat × String) : String :=
  let digits := toString e.1
  String.mk (List.replicate (5 - digits.length) ' ') ++ digits ++ " : " ++ e.2 ++ "\n"

/-- `'\t\t'.join(entries)` and friends: join with a separator between
consecutive elements. -/
def joinSep (sep : String) : List String → String
  | [] => ""
  | [x] => x
  | x :: y :: xs => x ++ sep ++ joinSep sep (y :: xs)

/-- One `key` section of `XMLFileData.get_string`: emitted only when
the bucket is non-empty. -/
def xmlPart (c : Colors) (key : String) (b : List (Nat × String)) : String :=
  if b.isEmpty then ""
  else "\t" ++ c.red ++ key ++ c.endc ++ "\n\t\t" ++ joinSep "\t\t" (b.map fmtEntry)

/-- `XMLFileData.get_string`: the three sections in the fixed key order
`Getters`, `Setters`, `Rest`. -/
def xmlGetString (c : Colors) (d : XMLFileData) : String :=
  xmlPart c "Getters" d.getters ++ xmlPart c "Setters" d.setters ++
    xmlPart c "Rest" d.rest

/-- `KeyFileData.get_string`: one tab-indented formatted line per match
(no colour codes are used here). -/
def keyGetString (strings : List (Nat × String)) : String :=
  String.join (strings.map (fun e => "\t" ++ fmtEntry e))

/-- `Data.get_data`, applied to the `(path, data.get_string())` pairs of
the appended files: a file contributes a header and its data only when
its formatted data is non-empty (`if len(tmp):`); an entirely empty
report is replaced by the `No results found` header. -/
def dataGetData (c : Colors) (files : List (String × String)) : String :=
  let s := String.join (files.map
    (fun f => if f.2.length > 0 then c.green ++ f.1 ++ c.endc ++ "\n" ++ f.2 else ""))
  if s.length > 0 then c.green ++ Const.HEADER ++ c.endc ++ "\n" ++ s
  else c.red ++ Const.NO_RES ++ c.endc

/-- `XMLStatic.analyze` up to the final `Logger.output_data` call: one
`XMLFileData` per scanned file.  The source accumulates into shared
`getters`/`setters`/`rest` lists, but copies them (`getters[:]`) into
the `XMLFileData` and clears them (`getters[:] = []`) after every
file, so each file's buckets hold exactly that file's matches. -/
def xmlAnalyzeData (fs : FileSystem) (root : String) :
    List (String × XMLFileData) :=
  (getNextFile fs root).map (fun f => (f.path, xmlScanFile f.content))

/-- `KeyStatic.analyze` up to the output call: `tmp = []` is created
afresh inside the file loop, so each file's data is its own matches. -/
def keyAnalyzeData (fs : FileSystem) (root : String) :
    List (String × List (Nat × String)) :=
  (getNextFile fs root).map (fun f => (f.path, keyScanFile f.content))

/-- `FinderStatic.analyze` up to the output call.  Here `tmp = []` is
created once, before the file loop, is never cleared, and every
`KeyFileData(tmp)` stores a reference to that one list; by the time
`Data.get_data` reads the results, the list holds the matches of all
scanned files, so every file's data is the full accumulated match
list. -/
def finderAnalyzeData (m : String → Bool) (fs : FileSystem) (root : String) :
    List (String × List (Nat × String)) :=
  let files := getNextFile fs root
  let total := files.foldl (fun acc f => acc ++ finderScanFile m f.content) []
  files.map (fun f => (f.path, total))

/-- The text printed by `XMLStatic.analyze`. -/
def xmlRender (c : Colors) (data : List (String × XMLFileData)) : String :=
  dataGetData c (data.map (fun f => (f.1, xmlGetString c f.2)))

/-- The text printed by `KeyStatic.analyze` and `FinderStatic.analyze`
(both store `KeyFileData`). -/
def keyRender (c : Colors) (data : List (String × List (Nat × String))) : String :=
  dataGetData c (data.map (fun f => (f.1, keyGetString f.2)))

/-- The parsed command-line arguments (`scrypt` is commented out in
`parse_flags` and therefore absent). -/
structure Args where
  sxml : Bool
  skey : Bool
  sfind : Bool
  dxml : Bool
  dbd : Bool
  nocolor : Bool
  path : Option String
  pattern : Option String

/-- The colour configuration `Menu.work` leaves in place: blanked when
`--nocolor` was given. -/
def argColors (args : Args) : Colors :=
  if args.nocolor then noColors else defaultColors

/-- The number of work-mode flags set.  `Menu.work` resets
`args[nocolor]` to `False` before counting, and the remaining
dictionary values that can equal `True` are exactly the five mode
flags, so `values.count(True)` is this count. -/
def modeCount (args : Args) : Nat :=
  [args.sxml, args.skey, args.sfind, args.dxml, args.dbd].count true

/-- `Menu.work` followed by the selected `analyze` call.  `compile`
models `re.compile(pattern, re.IGNORECASE)` for the user-supplied
`--sfind` pattern; `Logger.error_output` raises, modelled as
`Except.error` carrying the colourised message; the returned `ok`
value is the text the run prints.  The dynamic modes (`dxml`, `dbd`)
run `Dynamic.analyze`, which is `pass` and prints nothing.  The
filesystem is consulted only inside the three static `analyze`
calls. -/
def menuWork (compile : String → (String → Bool)) (args : Args)
    (fs : FileSystem) : Except String String :=
  let c := argColors args
  if modeCount args != 1 then
    Except.error (c.red ++ Const.ERR_NO_WORK_MODE ++ c.endc)
  else if args.sxml then
    match args.path with
    | none => Except.error (c.red ++ Const.ERR_NO_PATH ++ c.endc)
    | some p => Except.ok (xmlRender c (xmlAnalyzeData fs p))
  else if args.skey then
    match args.path with
    | none => Except.error (c.red ++ Const.ERR_NO_PATH ++ c.endc)
    | some p => Except.ok (keyRender c (keyAnalyzeData fs p))
  else if args.sfind then
    match args.path with
    | none => Except.error (c.red ++ Const.ERR_NO_PATH ++ c.endc)
    | some p =>
      match args.pattern with
      | none => Except.error (c.red ++ Const.ERR_NO_PATTERN ++ c.endc)
      | some pat => Except.ok (keyRender c (finderAnalyzeData (compile pat) fs p))
  else
    Except.ok ""

/-- Membership in a scan bucket started at index `i`: exactly the
predicate-satisfying lines, numbered from `i`. -/
theorem mem_scanBucketGo (pred : String → Bool) :
    ∀ (content : List String) (i n : Nat) (s : String),
    ((n, s) ∈ scanBucketGo pred i content) ↔
      ∃ k l, content.get? k = some l ∧ n = i + k ∧ pred l = true ∧
        s = pyStrip l := by
  intro content
  induction content with
  | nil => intro i n s; simp [scanBucketGo]
  | cons l ls ih =>
    intro i n s
    cases hp : pred l with
    | true =>
      rw [scanBucketGo, if_pos hp, List.mem_cons, ih]
      constructor
      · rintro (h | ⟨k, l', hget, hn, hpl, hs⟩)
        · injection h with hn hs
          exact ⟨0, l, rfl, by omega, hp, hs⟩
        · exact ⟨k + 1, l', hget, by omega, hpl, hs⟩
      · rintro ⟨k, l', hget, hn, hpl, hs⟩
        cases k with
        | zero =>
          left
          injection hget with hget
          rw [hn, hs, hget]
          simp
        | succ k' =>
          right
          exact ⟨k', l', hget, by omega, hpl, hs⟩
    | false =>
      rw [scanBucketGo, if_neg (by simp [hp]), ih]
      constructor
      · rintro ⟨k, l', hget, hn, hpl, hs⟩
        exact ⟨k + 1, l', hget, by omega, hpl, hs⟩
      · rintro ⟨k, l', hget, hn, hpl, hs⟩
        cases k with
        | zero =>
          injection hget with hget
          rw [← hget] at hpl
          rw [hp] at hpl
          cases hpl
        | succ k' =>
          exact ⟨k', l', hget, by omega, hpl, hs⟩

/-- Every line number recorded by a scan started at `i` is at least `i`. -/
theorem scanBucketGo_lb (pred : String → Bool) (content : List String)
    (i n : Nat) (s : String) (h : (n, s) ∈ scanBucketGo pred i content) :
    i ≤ n := by
  rcases (mem_scanBucketGo pred content i n s).1 h with ⟨k, l, _, hn, _, _⟩
  omega

/-- Scan buckets carry strictly increasing line numbers. -/
theorem pairwise_scanBucketGo (pred : String → Bool) :
    ∀ (content : List String) (i : Nat),
    List.Pairwise (fun a b : Nat × String => a.1 < b.1)
      (scanBucketGo pred i content) := by
  intro content
  induction content with
  | nil => intro i; simp [scanBucketGo]
  | cons l ls ih =>
    intro i
    cases hp : pred l with
    | true =>
      rw [scanBucketGo, if_pos hp]
      refine List.Pairwise.cons ?_ (ih (i + 1))
      rintro ⟨bn, bs⟩ hb
      have := scanBucketGo_lb pred ls (i + 1) bn bs hb
      simpa using by omega
    | false =>
      rw [scanBucketGo, if_neg (by simp [hp])]
      exact ih (i + 1)

/-- Membership in a file's scan bucket: exactly the 0-based line
numbers whose line satisfies the predicate, paired with the stripped
line text. -/
theorem mem_scanBucket (pred : String → Bool) (content : List String)
    (n : Nat) (s : String) :
    ((n, s) ∈ scanBucket pred content) ↔
      ∃ l, content.get? n = some l ∧ pred l = true ∧ s = pyStrip l := by
  unfold scanBucket
  rw [mem_scanBucketGo]
  constructor
  · rintro ⟨k, l, hget, hn, hpl, hs⟩
    refine ⟨l, ?_, hpl, hs⟩
    rw [show n = k by omega]
    exact hget
  · rintro ⟨l, hget, hpl, hs⟩
    exact ⟨n, l, hget, by omega, hpl, hs⟩

/-- A file's scan bucket lists line numbers in strictly increasing
order. -/
theorem pairwise_scanBucket (pred : String → Bool) (content : List String) :
    List.Pairwise (fun a b : Nat × String => a.1 < b.1)
      (scanBucket pred content) :=
  pairwise_scanBucketGo pred content 0

/-- Matching an initial segment is unaffected by text beyond a
separator character that does not occur in the sought segment. -/
theorem beginsWith_append_sep (sep : Char) :
    ∀ (J N D : List Char), sep ∉ J →
      beginsWith J (N ++ sep :: D) = beginsWith J N := by
  intro J
  induction J with
  | nil => intro N D _; rfl
  | cons c J' ih =>
    intro N D h
    cases N with
    | nil =>
      have hc : c ≠ sep := fun e => h (by simp [e])
      simp [beginsWith, hc]
    | cons a N' =>
      rw [List.cons_append]
      show (c == a && beginsWith J' (N' ++ sep :: D)) =
        (c == a && beginsWith J' N')
      rw [ih N' D (fun hm => h (List.mem_cons_of_mem _ hm))]

/-- The joined path ends in `java` exactly when the file name does:
`java` contains no path separator, so the suffix test cannot straddle
the `/` inserted by `os.path.join`. -/
theorem strEndsWith_pathJoin (d n : String) :
    strEndsWith (pathJoin d n) "java" = strEndsWith n "java" := by
  unfold strEndsWith pathJoin
  have hdata : (d ++ "/" ++ n).data = d.data ++ '/' :: n.data := by
    rw [String.data_append, String.data_append, List.append_assoc]; rfl
  rw [hdata]
  have hrev : (d.data ++ '/' :: n.data).reverse =
      n.data.reverse ++ '/' :: d.data.reverse := by
    rw [List.reverse_append, List.reverse_cons, List.append_assoc]; rfl
  rw [hrev, beginsWith_append_sep '/' _ _ _ (by decide)]

/-- A category section of `XMLFileData.get_string` is empty exactly
when its bucket is, whatever the colour configuration: a non-empty
bucket always contributes at least the leading tab. -/
theorem xmlPart_length_zero (c : Colors) (key : String)
    (b : List (Nat × String)) :
    ((xmlPart c key b).length = 0) ↔ b.isEmpty = true := by
  cases b with
  | nil => simp [xmlPart]
  | cons e es =>
    constructor
    · intro h
      exfalso
      have he : xmlPart c key (e :: es) =
          "\t" ++ c.red ++ key ++ c.endc ++ "\n\t\t" ++
            joinSep "\t\t" ((e :: es).map fmtEntry) := rfl
      rw [he, String.length_append, String.length_append,
        String.length_append, String.length_append, String.length_append] at h
      have h1 : ("\t" : String).length = 1 := rfl
      omega
    · intro h
      simp at h

/-- `XMLFileData.get_string` is empty exactly when all three buckets
are, independently of the colour configuration. -/
theorem xmlGetString_length_zero (c : Colors) (d : XMLFileData) :
    ((xmlGetString c d).length = 0) ↔
      (d.getters.isEmpty = true ∧ d.setters.isEmpty = true ∧
        d.rest.isEmpty = true) := by
  unfold xmlGetString
  rw [String.length_append, String.length_append, Nat.add_eq_zero,
    Nat.add_eq_zero]
  rw [and_assoc]
  exact and_congr (xmlPart_length_zero c _ _)
    (and_congr (xmlPart_length_zero c _ _) (xmlPart_length_zero c _ _))

/-- Matcher for the ad-hoc pattern `hit`, i.e. the predicate
`re.search(re.compile("hit", re.IGNORECASE), line)`. -/
def mHit : String → Bool := fun l => containsSub "hit".toList (toLowerList l)

/-- A readable two-file tree under `/r`: `a.java` has one line matching
the pattern `hit`, `b.java` has none. -/
def fsHit : FileSystem :=
  ⟨fun _ => true,
   fun r => if r = "/r" then [("/r", "a.java"), ("/r", "b.java")] else [],
   fun p =>
     if p = "/r/a.java" then ["hit one\n"]
     else if p = "/r/b.java" then ["clean\n"] else []⟩

/-- A filesystem on which every root is missing or unreadable
(`rootOk` is everywhere false); the recorded entries are unreachable. -/
def fsBad : FileSystem :=
  ⟨fun _ => false, fun _ => [("/gone", "A.java")],
   fun _ => ["sharedPreferences\n"]⟩

/-- Number of category buckets of an XML-mode file result containing an
entry for line number `n` (0 or 1 per bucket). -/
def bucketHit (b : List (Nat × String)) (n : Nat) : Nat :=
  if b.any (fun e => e.1 == n) then 1 else 0

/-- The line numbers of an XML-mode file result in the order
`XMLFileData.get_string` renders them: all getters, then all setters,
then the rest bucket. -/
def xmlRenderNums (d : XMLFileData) : List Nat :=
  (d.getters ++ d.setters ++ d.rest).map Prod.fst

/-- A bucket hit for category `c` pins down the line's classification. -/
theorem bucketHit_pos (c : XMLCat) (content : List String) (n : Nat)
    (h : bucketHit (xmlBucket c content) n = 1) :
    ∃ l, content.get? n = some l ∧ xmlClassify l = some c := by
  unfold bucketHit at h
  split at h
  · next hany =>
    rcases List.any_eq_true.1 hany with ⟨⟨m, s⟩, hmem, hm⟩
    have hmn : m = n := by simpa using hm
    rw [hmn] at hmem
    rcases (mem_scanBucket _ content n s).1 hmem with ⟨l, hget, hcl, _⟩
    exact ⟨l, hget, by simpa using hcl⟩
  · cases h

/-- C1: in ad-hoc pattern mode (`FinderStatic.analyze`) match records
are retained across files.  On a tree where `a.java` has the only
matching line, the result recorded for the later file `b.java` also
holds `a.java`'s match record: `tmp` is created once before the file
loop, never cleared, and aliased into every `KeyFileData`. -/
theorem finder_retains_matches_across_files :
    finderAnalyzeData mHit fsHit "/r" =
      [("/r/a.java", [(0, "hit one")]), ("/r/b.java", [(0, "hit one")])] := by
  decide

/-- C2: a static-mode scan over a missing or unreadable root does not
fail: `os.walk` (default `onerror=None`) silently yields nothing, the
scan completes normally and emits the colourised `No results found`
report.  Counterexample to the claimed fatal `PathError`. -/
theorem missing_root_scan_completes_normally :
    menuWork (fun _ _ => false)
      ⟨false, true, false, false, false, false, some "/gone", none⟩ fsBad =
      Except.ok "\x1b[91mNo results found\x1b[0m" := by
  rfl

/-- C2 (amended): for every root the filesystem reports missing or
unreadable, each of the three static analyses completes normally and
renders the `No results found` message — no file is read, and no
error is raised. -/
theorem missing_root_renders_no_results (c : Colors) (fs : FileSystem)
    (root : String) (m : String → Bool) (h : fs.rootOk root = false) :
    xmlRender c (xmlAnalyzeData fs root) = c.red ++ Const.NO_RES ++ c.endc ∧
    keyRender c (keyAnalyzeData fs root) = c.red ++ Const.NO_RES ++ c.endc ∧
    keyRender c (finderAnalyzeData m fs root) =
      c.red ++ Const.NO_RES ++ c.endc := by
  have hw : osWalkEntries fs root = [] := by
    unfold osWalkEntries
    rw [h]
    rfl
  refine ⟨?_, ?_, ?_⟩ <;>
    simp [xmlRender, keyRender, xmlAnalyzeData, keyAnalyzeData,
      finderAnalyzeData, getNextFile, javaFiles, hw, dataGetData,
      String.join]

/-- Witness for the amended C2 theorem at a concrete unreadable root. -/
theorem missing_root_renders_no_results_witness :
    xmlRender defaultColors (xmlAnalyzeData fsBad "/gone") =
      defaultColors.red ++ Const.NO_RES ++ defaultColors.endc ∧
    keyRender defaultColors (keyAnalyzeData fsBad "/gone") =
      defaultColors.red ++ Const.NO_RES ++ defaultColors.endc ∧
    keyRender defaultColors (finderAnalyzeData mHit fsBad "/gone") =
      defaultColors.red ++ Const.NO_RES ++ defaultColors.endc :=
  missing_root_renders_no_results defaultColors fsBad "/gone" mHit rfl

/-- C3: the preference-access classifier has three ordered rules, not
four — there is no listener rule — and a line containing only a
change-listener registration (without the literal `sharedPreferences`)
is not classified at all. -/
theorem no_listener_rule :
    xmlRules.length = 3 ∧
    xmlClassify "prefs.registerOnSharedPreferenceChangeListener(listener);" =
      none := by
  exact ⟨rfl, by decide⟩

/-- C3 (amended): the preference-access mode evaluates exactly the
three ordered rules getter-pattern, setter-pattern and the
`sharedPreferences` catch-all; a change-listener registration line is
classified by the catch-all when it contains the `sharedPreferences`
identifier and not at all otherwise. -/
theorem three_rules_catch_all_listener :
    xmlRules.map Prod.fst = [XMLCat.get, XMLCat.set, XMLCat.rest] ∧
    xmlClassify
      "sharedPreferences.registerOnSharedPreferenceChangeListener(listener);" =
      some XMLCat.rest ∧
    xmlClassify "prefs.registerOnSharedPreferenceChangeListener(listener);" =
      none := by
  exact ⟨rfl, by decide, by decide⟩

/-- C4: in preference-access mode a given line number of a file occurs
in at most one of the three category buckets of that file's result
(first-match-wins classification is exclusive). -/
theorem line_in_at_most_one_bucket (content : List String) (n : Nat) :
    bucketHit (xmlScanFile content).getters n +
      bucketHit (xmlScanFile content).setters n +
      bucketHit (xmlScanFile content).rest n ≤ 1 := by
  have key : ∀ c₁ c₂ : XMLCat, c₁ ≠ c₂ →
      ¬(bucketHit (xmlBucket c₁ content) n = 1 ∧
        bucketHit (xmlBucket c₂ content) n = 1) := by
    rintro c₁ c₂ hne ⟨h1, h2⟩
    rcases bucketHit_pos c₁ content n h1 with ⟨l, hl, hc1⟩
    rcases bucketHit_pos c₂ content n h2 with ⟨l', hl', hc2⟩
    rw [hl] at hl'
    injection hl' with e
    rw [← e] at hc2
    rw [hc1] at hc2
    injection hc2 with e2
    exact hne e2
  have hle : ∀ c : XMLCat, bucketHit (xmlBucket c content) n ≤ 1 := by
    intro c
    unfold bucketHit
    split <;> omega
  have hgs := key XMLCat.get XMLCat.set (by simp)
  have hgr := key XMLCat.get XMLCat.rest (by simp)
  have hsr := key XMLCat.set XMLCat.rest (by simp)
  have hg := hle XMLCat.get
  have hs := hle XMLCat.set
  have hr := hle XMLCat.rest
  show bucketHit (xmlBucket XMLCat.get content) n +
      bucketHit (xmlBucket XMLCat.set content) n +
      bucketHit (xmlBucket XMLCat.rest content) n ≤ 1
  omega

/-- C5: a file in which no line matches the active rule still appears
in the rendered report in ad-hoc pattern mode: `b.java` has no
matching line, yet the report shows a section for it (carrying
`a.java`'s match, through the shared `tmp` list). -/
theorem nomatch_file_rendered :
    keyRender noColors (finderAnalyzeData mHit fsHit "/r") =
      "Scan results\n/r/a.java\n\t    0 : hit one\n/r/b.java\n\t    0 : hit one\n" := by
  decide

/-- C6: under preference-access mode, a file whose single line is the
getter call is classified into the getter bucket with line number 0,
and the `putBoolean` line goes to the setter bucket, not the
catch-all. -/
theorem concrete_getter_setter_classification :
    xmlScanFile ["sharedPreferences.getString(\"key\", \"default\");\n"] =
      ⟨[(0, "sharedPreferences.getString(\"key\", \"default\");")], [], []⟩ ∧
    xmlScanFile ["prefs.edit().putBoolean(\"flag\", true);\n"] =
      ⟨[], [(0, "prefs.edit().putBoolean(\"flag\", true);")], []⟩ := by
  exact ⟨by decide, by decide⟩

/-- C7: the line numbers of one XML-mode file are NOT rendered in
non-decreasing order: a setter on line 0 after a getter on line 1 is
rendered as 1 then 0, because `get_string` renders all getters before
all setters. -/
theorem render_order_not_monotone :
    xmlRenderNums
      (xmlScanFile ["a.prefs.putInt(1);\n", "b.prefs.getInt(2);\n"]) =
      [1, 0] ∧
    ¬ List.Pairwise (fun a b : Nat => a ≤ b)
      (xmlRenderNums
        (xmlScanFile ["a.prefs.putInt(1);\n", "b.prefs.getInt(2);\n"])) := by
  have h1 : xmlRenderNums
      (xmlScanFile ["a.prefs.putInt(1);\n", "b.prefs.getInt(2);\n"]) =
      [1, 0] := by decide
  refine ⟨h1, ?_⟩
  rw [h1]
  decide

/-- C7 (amended): within each single category bucket of a scanned file
— the three XML-mode buckets, the credential-store bucket, and the
per-file matches of ad-hoc mode — line numbers appear in strictly
increasing order, and every recorded line number is a 0-based index of
the file's line list (paired with the stripped line text). -/
theorem bucket_numbers_sorted_and_zero_based (m : String → Bool)
    (content : List String) :
    (List.Pairwise (fun a b : Nat × String => a.1 < b.1)
        (xmlScanFile content).getters ∧
      List.Pairwise (fun a b : Nat × String => a.1 < b.1)
        (xmlScanFile content).setters ∧
      List.Pairwise (fun a b : Nat × String => a.1 < b.1)
        (xmlScanFile content).rest ∧
      List.Pairwise (fun a b : Nat × String => a.1 < b.1)
        (keyScanFile content) ∧
      List.Pairwise (fun a b : Nat × String => a.1 < b.1)
        (finderScanFile m content)) ∧
    ∀ (pred : String → Bool) (n : Nat) (s : String),
      (n, s) ∈ scanBucket pred content →
        ∃ l, content.get? n = some l ∧ s = pyStrip l := by
  refine ⟨⟨pairwise_scanBucket _ _, pairwise_scanBucket _ _,
    pairwise_scanBucket _ _, pairwise_scanBucket _ _,
    pairwise_scanBucket _ _⟩, ?_⟩
  intro pred n s h
  rcases (mem_scanBucket pred content n s).1 h with ⟨l, hget, _, hs⟩
  exact ⟨l, hget, hs⟩

/-- Witness for the amended C7 theorem: the credential-store match on
the first line of a concrete file is recorded at 0-based index 0 with
the stripped line text. -/
theorem bucket_numbers_sorted_and_zero_based_witness :
    ∃ l, (["KeyStore k;\n"] : List String).get? 0 = some l ∧
      "KeyStore k;" = pyStrip l :=
  (bucket_numbers_sorted_and_zero_based mHit ["KeyStore k;\n"]).2
    keyMatch 0 "KeyStore k;" (by decide)

/-- C8: with zero or several work-mode flags set, `Menu.work` raises
the configuration error before touching the filesystem (the result
does not depend on the filesystem at all), and the `--nocolor` flag is
not counted as a mode: one mode plus `--nocolor` proceeds to the
scan. -/
theorem config_error_on_bad_mode_count (compile : String → String → Bool)
    (args : Args) (fs fs' : FileSystem) :
    (modeCount args ≠ 1 →
      menuWork compile args fs =
        Except.error ((argColors args).red ++ Const.ERR_NO_WORK_MODE ++
          (argColors args).endc) ∧
      menuWork compile args fs = menuWork compile args fs') ∧
    ∀ p : String,
      menuWork compile ⟨true, false, false, false, false, true, some p, none⟩
        fs = Except.ok (xmlRender noColors (xmlAnalyzeData fs p)) := by
  constructor
  · intro h
    have hb : (modeCount args != 1) = true := bne_iff_ne.2 h
    constructor
    · simp only [menuWork]
      rw [if_pos hb]
    · simp only [menuWork]
      simp only [if_pos hb]
  · intro p
    rfl

/-- Witness for C8 at the all-flags-unset configuration. -/
theorem config_error_on_bad_mode_count_witness :
    menuWork (fun _ _ => false)
      ⟨false, false, false, false, false, false, none, none⟩ fsBad =
      Except.error (defaultColors.red ++ Const.ERR_NO_WORK_MODE ++
        defaultColors.endc) :=
  ((config_error_on_bad_mode_count (fun _ _ => false)
    ⟨false, false, false, false, false, false, none, none⟩ fsBad fsBad).1
      (by decide)).1

/-- C9: suppressing colour does not interfere with matching.  For each
static mode, the run with `--nocolor` and the run without it render
the very same structured scan data (same files, buckets, line numbers
and stripped text), differing only in the colour configuration handed
to the renderer; and emptiness of a file's rendered data — the
criterion for appearing in the report — is colour-independent. -/
theorem nocolor_only_changes_styling (compile : String → String → Bool)
    (fs : FileSystem) (p pat : String) :
    (menuWork compile ⟨true, false, false, false, false, true, some p, none⟩ fs
        = Except.ok (xmlRender noColors (xmlAnalyzeData fs p)) ∧
      menuWork compile ⟨true, false, false, false, false, false, some p, none⟩
        fs = Except.ok (xmlRender defaultColors (xmlAnalyzeData fs p))) ∧
    (menuWork compile ⟨false, true, false, false, false, true, some p, none⟩ fs
        = Except.ok (keyRender noColors (keyAnalyzeData fs p)) ∧
      menuWork compile ⟨false, true, false, false, false, false, some p, none⟩
        fs = Except.ok (keyRender defaultColors (keyAnalyzeData fs p))) ∧
    (menuWork compile
        ⟨false, false, true, false, false, true, some p, some pat⟩ fs
        = Except.ok (keyRender noColors (finderAnalyzeData (compile pat) fs p)) ∧
      menuWork compile
        ⟨false, false, true, false, false, false, some p, some pat⟩ fs
        = Except.ok
            (keyRender defaultColors (finderAnalyzeData (compile pat) fs p))) ∧
    ∀ (c : Colors) (d : XMLFileData),
      ((xmlGetString c d).length = 0 ↔ (xmlGetString noColors d).length = 0) :=
  ⟨⟨rfl, rfl⟩, ⟨rfl, rfl⟩, ⟨rfl, rfl⟩,
    fun c d => (xmlGetString_length_zero c d).trans
      (xmlGetString_length_zero noColors d).symm⟩

/-- C10: a file is selected for scanning exactly when its file name
ends in the character sequence `java` — the filter over the joined
path is equivalent to a filter over the bare file name, there is no
dot check (so `myjava` is selected), and any other name is skipped. -/
theorem selected_iff_name_ends_in_java (fs : FileSystem) (root : String) :
    (getNextFile fs root =
      ((osWalkEntries fs root).filter (fun e => strEndsWith e.2 "java")).map
        (fun e => ⟨fs.readLines (pathJoin e.1 e.2), pathJoin e.1 e.2⟩)) ∧
    strEndsWith "myjava" "java" = true ∧
    strEndsWith (pathJoin "/src" "myjava") "java" = true ∧
    strEndsWith "Main.kt" "java" = false := by
  refine ⟨?_, by decide, by decide, by decide⟩
  unfold getNextFile javaFiles
  rw [@List.filter_map _ _ (fun p => strEndsWith p "java")
    (fun e => pathJoin e.1 e.2) (osWalkEntries fs root)]
  rw [List.map_map]
  simp only [Function.comp_def]
  rw [List.filter_congr
    (fun e _ => strEndsWith_pathJoin e.1 e.2 :
      ∀ e ∈ osWalkEntries fs root,
        strEndsWith (pathJoin e.1 e.2) "java" = strEndsWith e.2 "java")]
